import Mathlib

/-!
Shallow embedding of the OpenBabel conversion core declared in
`src/obconversion.h` (classes `OBFormat` and `OBConversion`), together with
theorems checking the natural-language specification against it.

C strings (`const char*`, `std::string`) are modelled as lists of byte
values (`List Nat`); streams and chemical objects are opaque handles.
Where the header only declares a member whose body lives outside this
repository, the corresponding Lean definition is modelled from the spec and
says so in its doc comment; everything else is translated from the header.
-/

namespace OpenBabel

/-- A byte string: the model of `const char*` / `std::string` contents. -/
abbrev Bytes := List Nat

/-- Bytes of a Lean string literal, for concrete test inputs. -/
def str (s : String) : Bytes := s.toList.map Char.toNat

/-- ASCII `tolower` on one byte, as used by `strcasecmp`. -/
def asciiLower (b : Nat) : Nat := if 65 ≤ b ∧ b ≤ 90 then b + 32 else b

/-- Lowercasing of a whole byte string. -/
def lowerBytes (s : Bytes) : Bytes := s.map asciiLower

/-- Three-way comparison of two bytes. -/
def byteCmp (a b : Nat) : Ordering :=
  if a < b then .lt else if b < a then .gt else .eq

/-- Lexicographic three-way comparison of byte strings (the behaviour of
`strcmp` on NUL-terminated C strings). -/
def listCmp : Bytes → Bytes → Ordering
  | [], [] => .eq
  | [], _ :: _ => .lt
  | _ :: _, [] => .gt
  | a :: xs, b :: ys =>
    match byteCmp a b with
    | .eq => listCmp xs ys
    | o => o

/-- `strcasecmp`: compare byte strings after ASCII lowercasing. -/
def strcasecmp (p1 p2 : Bytes) : Ordering :=
  listCmp (lowerBytes p1) (lowerBytes p2)

/-- `CharPtrLess` from `obconversion.h`: `strcasecmp(p1,p2) < 0`, the
key comparator of `FMapType`. -/
def CharPtrLess (p1 p2 : Bytes) : Bool := strcasecmp p1 p2 = .lt

/-- Key equivalence induced by `CharPtrLess`, exactly as `std::map`
determines it: neither key is strictly less than the other. -/
def keyEquiv (p1 p2 : Bytes) : Bool := !CharPtrLess p1 p2 && !CharPtrLess p2 p1

theorem byteCmp_eq_iff (a b : Nat) : byteCmp a b = .eq ↔ a = b := by
  unfold byteCmp
  split
  · simp; omega
  · split <;> simp <;> omega

theorem byteCmp_swap (a b : Nat) : byteCmp b a = (byteCmp a b).swap := by
  unfold byteCmp
  rcases Nat.lt_trichotomy a b with h | h | h
  · simp [h, Nat.lt_asymm h, Ordering.swap]
  · simp [h, Nat.lt_irrefl, Ordering.swap]
  · simp [h, Nat.lt_asymm h, Ordering.swap]

theorem listCmp_eq_iff (x y : Bytes) : listCmp x y = .eq ↔ x = y := by
  induction x generalizing y with
  | nil => cases y <;> simp [listCmp]
  | cons a xs ih =>
    cases y with
    | nil => simp [listCmp]
    | cons b ys =>
      simp only [listCmp]
      rcases hab : byteCmp a b with h | h | h
      · simp only [List.cons.injEq]
        constructor
        · intro h; exact absurd h (by simp)
        · rintro ⟨rfl, rfl⟩; rw [(byteCmp_eq_iff a a).mpr rfl] at hab; cases hab
      · rw [ih ys]
        have := (byteCmp_eq_iff a b).mp hab
        simp [this]
      · simp only [List.cons.injEq]
        constructor
        · intro h; exact absurd h (by simp)
        · rintro ⟨rfl, rfl⟩; rw [(byteCmp_eq_iff a a).mpr rfl] at hab; cases hab

theorem listCmp_swap (x y : Bytes) : listCmp y x = (listCmp x y).swap := by
  induction x generalizing y with
  | nil => cases y <;> simp [listCmp, Ordering.swap]
  | cons a xs ih =>
    cases y with
    | nil => simp [listCmp, Ordering.swap]
    | cons b ys =>
      simp only [listCmp, byteCmp_swap a b]
      rcases byteCmp a b with _ | _ | _ <;> simp [Ordering.swap, ih ys]

/-- The `std::map` key equivalence of `CharPtrLess` is exactly equality of
ASCII-lowercased strings. -/
theorem keyEquiv_iff_lower_eq (p q : Bytes) :
    keyEquiv p q = true ↔ lowerBytes p = lowerBytes q := by
  unfold keyEquiv CharPtrLess strcasecmp
  rw [← listCmp_eq_iff (lowerBytes p) (lowerBytes q)]
  rw [listCmp_swap (lowerBytes p) (lowerBytes q)]
  rcases listCmp (lowerBytes p) (lowerBytes q) with _ | _ | _ <;>
    simp [Ordering.swap]

/-! ## Formats and the format registry -/

/-- Capability flag `DEFAULTFORMAT` (0x4000) from `obconversion.h`. -/
def DEFAULTFORMAT : Nat := 0x4000

/-- Model of an `OBFormat` instance: an opaque identity tag, the capability
bitset returned by `Flags()`, and the boolean outcome its virtual
`ReadMolecule` reports when invoked. -/
structure OBFormat where
  tag : Nat
  flags : Nat
  readMolOk : Bool
deriving DecidableEq, Repr

/-- `FMapType`: `std::map<const char*, OBFormat*, CharPtrLess>`, modelled as
an association list whose key discipline is the `CharPtrLess` equivalence. -/
abbrev FMapType := List (Bytes × OBFormat)

/-- `std::map::find` under the `CharPtrLess` comparator: the entry whose key
is equivalent to `k` (neither strictly less than the other), if any. -/
def mapFind (m : FMapType) (k : Bytes) : Option OBFormat :=
  (m.find? fun e => keyEquiv e.1 k).map (·.2)

/-- `std::map::operator[]` assignment under `CharPtrLess`: replace the value
of the entry with an equivalent key, or append a fresh entry. -/
def mapStore : FMapType → Bytes → OBFormat → FMapType
  | [], k, v => [(k, v)]
  | e :: es, k, v =>
    if keyEquiv e.1 k then (e.1, v) :: es else e :: mapStore es k v

/-- The registry's process-wide state: the identifier map `FormatsMap()`, the
MIME map `FormatsMIMEMap()`, the `pDefaultFormat` static pointer, and the
count of registration calls backing the returned ordinal. -/
structure RegistryState where
  formatsMap : FMapType
  formatsMIMEMap : FMapType
  pDefaultFormat : Option OBFormat
  regCalls : Nat
deriving DecidableEq, Repr

/-- The registry before any format registers: both maps empty and the static
`pDefaultFormat` pointer null. -/
def initialRegistry : RegistryState :=
  { formatsMap := [], formatsMIMEMap := [], pDefaultFormat := none, regCalls := 0 }

/-- Modelled from the spec: the body of `OBConversion::RegisterFormat` is not
in the header. Per the spec it adds `id → format` to the identifier map and,
when given, the MIME to the MIME map; both maps are the header's `FMapType`
(a `std::map` keyed by the `CharPtrLess` equivalence, which admits at most
one entry per equivalence class — storing under an already-present
identifier therefore replaces that entry's format). A format whose `Flags()`
include `DEFAULTFORMAT` becomes `pDefaultFormat`. The call returns a
monotonically increasing ordinal unique to the call, modelled as the number
of registration calls made so far. -/
def RegisterFormat (st : RegistryState) (id : Bytes) (pFormat : OBFormat)
    (mime : Option Bytes) : Nat × RegistryState :=
  (st.regCalls + 1,
    { formatsMap := mapStore st.formatsMap id pFormat
      formatsMIMEMap :=
        match mime with
        | some m => mapStore st.formatsMIMEMap m pFormat
        | none => st.formatsMIMEMap
      pDefaultFormat :=
        if pFormat.flags &&& DEFAULTFORMAT ≠ 0 then some pFormat
        else st.pDefaultFormat
      regCalls := st.regCalls + 1 })

/-- Modelled from the spec: the body of `OBConversion::FindFormat` is not in
the header. Per the spec it is a case-insensitive exact match, i.e. a
`std::map::find` on `FormatsMap()` under its `CharPtrLess` comparator. -/
def FindFormat (st : RegistryState) (id : Bytes) : Option OBFormat :=
  mapFind st.formatsMap id

/-- `OBConversion::GetDefaultFormat`, inline in the header: returns the
static `pDefaultFormat` pointer (null / `none` when no default-flagged
format was ever registered — the `NoDefaultFormat` condition). -/
def GetDefaultFormat (st : RegistryState) : Option OBFormat :=
  st.pDefaultFormat

/-- One registration call, for reasoning about call sequences. -/
structure RegEvent where
  id : Bytes
  fmt : OBFormat
  mime : Option Bytes
deriving DecidableEq, Repr

/-- Apply a sequence of `RegisterFormat` calls to a registry state. -/
def applyEvents (st : RegistryState) : List RegEvent → RegistryState
  | [] => st
  | e :: es => applyEvents (RegisterFormat st e.id e.fmt e.mime).2 es

/-- The ordinals returned by a sequence of `RegisterFormat` calls. -/
def registerSeq (st : RegistryState) : List RegEvent → List Nat
  | [] => []
  | e :: es =>
    (RegisterFormat st e.id e.fmt e.mime).1 ::
      registerSeq (RegisterFormat st e.id e.fmt e.mime).2 es

/-- Whether a registration event carries a `DEFAULTFORMAT`-flagged format. -/
def hasDefaultFlag (e : RegEvent) : Bool := e.fmt.flags &&& DEFAULTFORMAT ≠ 0

/-! ### Registry lemmas -/

theorem keyEquiv_of_lower_eq {p q : Bytes} (h : lowerBytes p = lowerBytes q) :
    keyEquiv p q = true := (keyEquiv_iff_lower_eq p q).mpr h

theorem keyEquiv_congr {s t : Bytes} (p : Bytes)
    (h : lowerBytes t = lowerBytes s) : keyEquiv p t = keyEquiv p s := by
  rcases hq : keyEquiv p s with _ | _
  · rw [Bool.eq_false_iff] at hq ⊢
    intro hc
    apply hq
    rw [keyEquiv_iff_lower_eq] at hc ⊢
    rw [hc, h]
  · rw [keyEquiv_iff_lower_eq] at hq ⊢
    rw [hq, h]

theorem mapFind_congr (m : FMapType) {s t : Bytes}
    (h : lowerBytes t = lowerBytes s) : mapFind m t = mapFind m s := by
  induction m with
  | nil => rfl
  | cons e es ih =>
    unfold mapFind at ih ⊢
    simp only [List.find?, keyEquiv_congr e.1 h]
    rcases keyEquiv e.1 s with _ | _
    · exact ih
    · rfl

theorem mapFind_mapStore (m : FMapType) {k t : Bytes} (v : OBFormat)
    (h : lowerBytes t = lowerBytes k) : mapFind (mapStore m k v) t = some v := by
  induction m with
  | nil =>
    simp [mapStore, mapFind, List.find?, keyEquiv_of_lower_eq h.symm]
  | cons e es ih =>
    by_cases he : keyEquiv e.1 k = true
    · have het : keyEquiv e.1 t = true := by
        rw [keyEquiv_iff_lower_eq] at he ⊢
        rw [he, h]
      simp [mapStore, he, mapFind, List.find?, het]
    · have het : keyEquiv e.1 t = false := by
        rw [Bool.eq_false_iff]
        intro hc
        apply he
        rw [keyEquiv_iff_lower_eq] at hc ⊢
        rw [hc, h]
      simp only [mapStore, he, if_false]
      simpa [mapFind, List.find?, het] using ih

theorem pDefault_applyEvents_of_no_default (st : RegistryState)
    (evs : List RegEvent) (h : ∀ e ∈ evs, hasDefaultFlag e = false) :
    (applyEvents st evs).pDefaultFormat = st.pDefaultFormat := by
  induction evs generalizing st with
  | nil => rfl
  | cons e es ih =>
    have he : hasDefaultFlag e = false := h e (List.mem_cons_self e es)
    have hes : ∀ x ∈ es, hasDefaultFlag x = false :=
      fun x hx => h x (List.mem_cons_of_mem e hx)
    rw [applyEvents, ih _ hes]
    simp only [RegisterFormat]
    unfold hasDefaultFlag at he
    simp only [decide_eq_false_iff_not, Decidable.not_not] at he
    simp [he]

theorem pDefault_applyEvents_one (st : RegistryState) (evs : List RegEvent)
    (d : RegEvent) (h : evs.filter hasDefaultFlag = [d]) :
    (applyEvents st evs).pDefaultFormat = some d.fmt := by
  induction evs generalizing st with
  | nil => cases h
  | cons e es ih =>
    rw [applyEvents]
    rcases he : hasDefaultFlag e with _ | _
    · rw [List.filter_cons_of_neg (by simp [he])] at h
      exact ih _ h
    · rw [List.filter_cons_of_pos he] at h
      injection h with h1 h2
      subst h1
      have hes : ∀ x ∈ es, hasDefaultFlag x = false := by
        intro x hx
        rw [Bool.eq_false_iff]
        exact fun hc => (List.filter_eq_nil_iff.mp h2) x hx hc
      rw [pDefault_applyEvents_of_no_default _ _ hes]
      unfold hasDefaultFlag at he
      simp only [decide_eq_true_eq] at he
      simp [RegisterFormat, he]

theorem registerSeq_chain (st : RegistryState) (evs : List RegEvent) :
    List.Chain' (· < ·) (registerSeq st evs) ∧
      ∀ x ∈ registerSeq st evs, st.regCalls < x := by
  induction evs generalizing st with
  | nil => simp [registerSeq]
  | cons e es ih =>
    have h' := ih (RegisterFormat st e.id e.fmt e.mime).2
    have hcalls : (RegisterFormat st e.id e.fmt e.mime).2.regCalls =
        st.regCalls + 1 := rfl
    rw [hcalls] at h'
    constructor
    · rw [registerSeq]
      rw [List.chain'_cons']
      refine ⟨?_, h'.1⟩
      intro b hb
      have hmem : b ∈ registerSeq (RegisterFormat st e.id e.fmt e.mime).2 es :=
        List.mem_of_mem_head? hb
      exact h'.2 b hmem
    · intro x hx
      rw [registerSeq, List.mem_cons] at hx
      rcases hx with rfl | hx
      · exact Nat.lt_succ_self _
      · exact Nat.lt_of_succ_lt (h'.2 x hx)

/-! ### Sample formats for concrete evaluations -/

/-- A sample non-default format. -/
def fmtA : OBFormat := { tag := 0, flags := 0, readMolOk := true }

/-- A second, distinct non-default format. -/
def fmtB : OBFormat := { tag := 1, flags := 0, readMolOk := true }

/-- A sample format carrying the `DEFAULTFORMAT` flag. -/
def fmtD : OBFormat := { tag := 2, flags := DEFAULTFORMAT, readMolOk := true }

/-! ## Claim theorems: the format registry -/

/-- C1: identifier lookup in the format registry is case-insensitive:
`FindFormat` coincides on identifiers equal up to ASCII case, and after
registering `f` under `s`, looking up any `t` equal to `s` up to ASCII case
returns `f`. -/
theorem C1_findFormat_case_insensitive :
    (∀ (st : RegistryState) (s t : Bytes), lowerBytes t = lowerBytes s →
      FindFormat st t = FindFormat st s) ∧
    (∀ (st : RegistryState) (s t : Bytes) (f : OBFormat) (mime : Option Bytes),
      lowerBytes t = lowerBytes s →
      FindFormat (RegisterFormat st s f mime).2 t = some f) := by
  constructor
  · intro st s t h
    exact mapFind_congr _ h
  · intro st s t f mime h
    exact mapFind_mapStore _ f h

/-- Witness for C1: register under "CML", find under "cml". -/
theorem C1_findFormat_case_insensitive_witness :
    FindFormat (RegisterFormat initialRegistry (str "CML") fmtA none).2
      (str "cml") = some fmtA :=
  C1_findFormat_case_insensitive.2 initialRegistry (str "CML") (str "cml")
    fmtA none (by decide)

/-- C3 counterexample: `FMapType` is a `std::map` under the `CharPtrLess`
equivalence, so it holds at most one entry per identifier; registering twice
under "cml" leaves a single entry holding only the second format — the
earlier registration is removed from the registry, contradicting the claim
that both remain independently lookupable. -/
theorem C3_register_twice_counterexample :
    (applyEvents initialRegistry
        [⟨str "cml", fmtA, none⟩, ⟨str "cml", fmtB, none⟩]).formatsMap
      = [(str "cml", fmtB)] ∧ fmtA ≠ fmtB := by
  constructor
  · decide
  · decide

/-- C3 amended: registering twice under the same identifier leaves a single
registry entry for it, whose format is the later registration (the earlier
one is no longer lookupable); the ordinals returned by successive
`RegisterFormat` calls are strictly increasing. -/
theorem C3_register_twice_amended :
    (∀ (st : RegistryState) (id : Bytes) (f0 f1 : OBFormat)
        (m0 m1 : Option Bytes),
      FindFormat (RegisterFormat (RegisterFormat st id f0 m0).2 id f1 m1).2 id
        = some f1) ∧
    (∀ (st : RegistryState) (evs : List RegEvent),
      List.Chain' (· < ·) (registerSeq st evs)) := by
  constructor
  · intro st id f0 f1 m0 m1
    exact mapFind_mapStore _ f1 rfl
  · intro st evs
    exact (registerSeq_chain st evs).1

/-- C6: with no `DEFAULTFORMAT`-flagged format ever registered,
`GetDefaultFormat` yields nothing (the `NoDefaultFormat` condition: the
static `pDefaultFormat` pointer is still null); with exactly one
default-flagged format registered, it yields that format. -/
theorem C6_getDefaultFormat (evs : List RegEvent) :
    ((∀ e ∈ evs, hasDefaultFlag e = false) →
      GetDefaultFormat (applyEvents initialRegistry evs) = none) ∧
    (∀ d, evs.filter hasDefaultFlag = [d] →
      GetDefaultFormat (applyEvents initialRegistry evs) = some d.fmt) := by
  constructor
  · intro h
    unfold GetDefaultFormat
    rw [pDefault_applyEvents_of_no_default _ _ h]
    rfl
  · intro d h
    unfold GetDefaultFormat
    exact pDefault_applyEvents_one _ _ _ h

/-- Witness for C6: two non-default registrations leave no default format;
adding one default-flagged registration makes it the default. -/
theorem C6_getDefaultFormat_witness :
    GetDefaultFormat (applyEvents initialRegistry
        [⟨str "xyz", fmtA, none⟩, ⟨str "mol", fmtB, none⟩]) = none ∧
    GetDefaultFormat (applyEvents initialRegistry
        [⟨str "xyz", fmtA, none⟩, ⟨str "mol", fmtD, none⟩]) = some fmtD := by
  constructor
  · exact (C6_getDefaultFormat _).1 (by decide)
  · exact (C6_getDefaultFormat _).2 ⟨str "mol", fmtD, none⟩ (by decide)

/-! ## The Option Store -/

/-- `OBConversion::Option_type`: the three option scopes. -/
inductive Option_type
  | INOPTIONS
  | OUTOPTIONS
  | GENOPTIONS
deriving DecidableEq, Repr

/-- One scope of `OptionsArray`: a `std::map<std::string,std::string>`,
modelled as an association list with exact string keys. -/
abbrev OptMap := List (Bytes × Bytes)

/-- `std::map<std::string,std::string>::operator[]` assignment: exact-key
replace-or-append. -/
def optStore : OptMap → Bytes → Bytes → OptMap
  | [], k, v => [(k, v)]
  | e :: es, k, v => if e.1 = k then (k, v) :: es else e :: optStore es k v

/-- `std::map<std::string,std::string> OptionsArray[3]` from the header. -/
structure OptionsStore where
  inOpts : OptMap
  outOpts : OptMap
  genOpts : OptMap
deriving DecidableEq, Repr

/-- The scope of `OptionsArray` selected by an `Option_type` index. -/
def getScope (st : OptionsStore) : Option_type → OptMap
  | .INOPTIONS => st.inOpts
  | .OUTOPTIONS => st.outOpts
  | .GENOPTIONS => st.genOpts

/-- Replace the scope of `OptionsArray` selected by an `Option_type`. -/
def setScope (st : OptionsStore) : Option_type → OptMap → OptionsStore
  | .INOPTIONS, m => { st with inOpts := m }
  | .OUTOPTIONS, m => { st with outOpts := m }
  | .GENOPTIONS, m => { st with genOpts := m }

/-- Parser state for the compact option string `ab"btext"c"ctext"`:
between options, just after a token character, or inside a quoted payload. -/
inductive PState
  | top (acc : List (Nat × Bytes))
  | afterTok (acc : List (Nat × Bytes)) (c : Nat)
  | inQuote (acc : List (Nat × Bytes)) (c : Nat) (payload : Bytes)
deriving DecidableEq, Repr

/-- One byte of the compact option string: a double quote (byte 34) after a
token opens that token's payload, a double quote inside a payload closes it,
any other byte is payload text or the next single-character token. -/
def parseStep (st : PState) (b : Nat) : PState :=
  match st with
  | .top acc => .afterTok acc b
  | .afterTok acc c =>
    if b = 34 then .inQuote acc c [] else .afterTok (acc ++ [(c, [])]) b
  | .inQuote acc c payload =>
    if b = 34 then .top (acc ++ [(c, payload)])
    else .inQuote acc c (payload ++ [b])

/-- End of the compact option string: a still-open quoted payload means the
string is malformed (`none`); otherwise the parsed `(option, payload)`
pairs. -/
def parseFinish : PState → Option (List (Nat × Bytes))
  | .top acc => some acc
  | .afterTok acc c => some (acc ++ [(c, [])])
  | .inQuote _ _ _ => none

/-- Modelled from the spec: the grammar behind `OBConversion::SetOptions`
(its body is not in the header). The compact string is a sequence of
single-character option tokens, each optionally followed by a
double-quoted payload; an unterminated payload is malformed and yields
`none`, the `MalformedOptionString` condition. -/
def parseCompact (s : Bytes) : Option (List (Nat × Bytes)) :=
  parseFinish (s.foldl parseStep (.top []))

/-- Modelled from the spec: the body of `OBConversion::SetOptions` is not in
the header. It sets several single-character options of the given scope from
a compact string; per the spec a malformed string fails with the
`MalformedOptionString` condition (the `false` result here) with no partial
mutation — options are applied only after the whole string has parsed. -/
def SetOptions (st : OptionsStore) (options : Bytes) (opttyp : Option_type) :
    Bool × OptionsStore :=
  match parseCompact options with
  | none => (false, st)
  | some opts =>
    (true, setScope st opttyp
      (opts.foldl (fun m ov => optStore m [ov.1] ov.2) (getScope st opttyp)))

/-- C2: a malformed compact option string (e.g. an unterminated quoted
payload) makes `SetOptions` report failure and leaves the target scope's
option mapping — indeed the whole store — exactly as it was. -/
theorem C2_setOptions_malformed (st : OptionsStore) (options : Bytes)
    (opttyp : Option_type) (h : parseCompact options = none) :
    (SetOptions st options opttyp).1 = false ∧
    (SetOptions st options opttyp).2 = st ∧
    getScope (SetOptions st options opttyp).2 opttyp = getScope st opttyp := by
  refine ⟨?_, ?_, ?_⟩ <;> simp [SetOptions, h]

/-- Witness for C2: the compact string `ab"btext` has an unterminated quoted
payload; applied to a non-empty output scope, `SetOptions` fails and the
store is untouched. -/
theorem C2_setOptions_malformed_witness :
    (SetOptions ⟨[], [(str "a", [])], []⟩ (str "ab\"btext") .OUTOPTIONS).1
        = false ∧
    (SetOptions ⟨[], [(str "a", [])], []⟩ (str "ab\"btext") .OUTOPTIONS).2
        = ⟨[], [(str "a", [])], []⟩ := by
  have h := C2_setOptions_malformed ⟨[], [(str "a", [])], []⟩
    (str "ab\"btext") .OUTOPTIONS (by decide)
  exact ⟨h.1, h.2.1⟩

/-! ## The conversion session -/

/-- The mutable state of an `OBConversion` instance: the protected members
declared in the header. Streams and chemical objects are opaque handles
(`Option Nat`, `none` = null pointer); `std::streampos` is a `Nat`. -/
structure OBConversionState where
  InFilename : Bytes
  pInStream : Option Nat
  pOutStream : Option Nat
  pInFormat : Option OBFormat
  pOutFormat : Option OBFormat
  optionsStore : OptionsStore
  Index : Int
  StartNumber : Nat
  EndNumber : Nat
  Count : Int
  m_IsLast : Bool
  MoreFilesToCome : Bool
  OneObjectOnly : Bool
  ReadyToInput : Bool
  pOb1 : Option Nat
  wInpos : Nat
  rInpos : Nat
deriving DecidableEq, Repr

/-- A freshly constructed conversion session. -/
def initialConv : OBConversionState :=
  { InFilename := [], pInStream := none, pOutStream := none,
    pInFormat := none, pOutFormat := none,
    optionsStore := ⟨[], [], []⟩, Index := 0, StartNumber := 0,
    EndNumber := 0, Count := -1, m_IsLast := false, MoreFilesToCome := false,
    OneObjectOnly := false, ReadyToInput := true, pOb1 := none,
    wInpos := 0, rInpos := 0 }

/-- `OBConversion::GetInPos`, inline in the header: `{return wInpos;}` — the
position in the input stream of the object being written. -/
def GetInPos (st : OBConversionState) : Nat := st.wInpos

/-- Modelled from the spec: the body of `OBConversion::GetOutputIndex` is
not in the header; it retrieves the number of chemical objects that have
been actually output, the session's running `Index`. -/
def GetOutputIndex (st : OBConversionState) : Int := st.Index

/-- `OBConversion::IsLast`: true if no more objects are to be output,
reading the session's `m_IsLast` flag. -/
def IsLast (st : OBConversionState) : Bool := st.m_IsLast

/-- One object flowing through the conversion loop: whether the input
format's read of it succeeds and whether the output format's write of it
succeeds. -/
structure ConvObj where
  readOk : Bool
  writeOk : Bool
deriving DecidableEq, Repr

/-- An object that both reads and writes successfully. -/
def okObj : ConvObj := { readOk := true, writeOk := true }

/-- An object whose write fails. -/
def badWriteObj : ConvObj := { readOk := true, writeOk := false }

/-- Whether an object passes both its read and its write. -/
def objOk (o : ConvObj) : Bool := o.readOk && o.writeOk

/-- What one conversion run produced: the final session state, the objects
actually written (in order), the `IsLast` value the output format observed
at each completed write, and whether a read/write failure aborted the
loop. -/
structure LoopResult where
  final : OBConversionState
  written : List ConvObj
  lastFlags : List Bool
  errored : Bool
deriving DecidableEq, Repr

/-- Modelled from the spec: the body of `OBConversion::Convert` is not in
the header. The loop takes the input's objects one at a time; a failed read
or write aborts the run with the session in its current state (prior writes
stand); otherwise `m_IsLast` is set when no further object remains, the
object is written, and `Index` counts the completed write. -/
def convertLoop (st : OBConversionState) : List ConvObj → LoopResult
  | [] => ⟨st, [], [], false⟩
  | o :: rest =>
    if o.readOk then
      if o.writeOk then
        let r := convertLoop
          { st with m_IsLast := rest.isEmpty, Index := st.Index + 1 } rest
        ⟨r.final, o :: r.written,
          IsLast { st with m_IsLast := rest.isEmpty } :: r.lastFlags,
          r.errored⟩
      else ⟨{ st with m_IsLast := rest.isEmpty }, [], [], true⟩
    else ⟨st, [], [], true⟩

/-- C4: when a read or write failure aborts the loop, `GetOutputIndex` on
the final state still reports the objects successfully output before the
failure (the run's starting index plus the successful prefix), and exactly
that prefix has been written — completed writes are not undone. -/
theorem C4_outputIndex_after_failure (st : OBConversionState)
    (objs : List ConvObj) (h : (convertLoop st objs).errored = true) :
    GetOutputIndex (convertLoop st objs).final =
        GetOutputIndex st + ((objs.takeWhile objOk).length : Int) ∧
    (convertLoop st objs).written = objs.takeWhile objOk := by
  induction objs generalizing st with
  | nil => cases h
  | cons o rest ih =>
    rcases hr : o.readOk with _ | _
    · have hok : objOk o = false := by simp [objOk, hr]
      simp [convertLoop, hr, List.takeWhile_cons, hok, GetOutputIndex]
    · rcases hw : o.writeOk with _ | _
      · have hok : objOk o = false := by simp [objOk, hr, hw]
        simp [convertLoop, hr, hw, List.takeWhile_cons, hok, GetOutputIndex]
      · have hok : objOk o = true := by simp [objOk, hr, hw]
        rw [convertLoop] at h ⊢
        simp only [hr, hw, if_true, if_false] at h ⊢
        have herr : (convertLoop
            { st with m_IsLast := rest.isEmpty, Index := st.Index + 1 }
            rest).errored = true := h
        have := ih _ herr
        simp only [List.takeWhile_cons, hok, if_true, List.length_cons,
          GetOutputIndex] at this ⊢
        refine ⟨?_, ?_⟩
        · rw [this.1]; push_cast; ring
        · rw [this.2]

/-- Witness for C4: three objects where the third write fails — the index
reports two completed writes and the first two objects remain written. -/
theorem C4_outputIndex_after_failure_witness :
    GetOutputIndex (convertLoop initialConv [okObj, okObj, badWriteObj]).final
        = 2 ∧
    (convertLoop initialConv [okObj, okObj, badWriteObj]).written
        = [okObj, okObj] := by
  have h := C4_outputIndex_after_failure initialConv [okObj, okObj, badWriteObj]
    (by decide)
  refine ⟨?_, ?_⟩
  · rw [h.1]; decide
  · rw [h.2]; decide

/-- C5: in a run whose every object reads and writes successfully, the
`IsLast` value observed at each write is `false` for every object except
the last one produced from the exhausted input, and `true` for that last
one. -/
theorem C5_isLast (st : OBConversionState) (objs : List ConvObj)
    (hok : ∀ o ∈ objs, objOk o = true) (hne : objs ≠ []) :
    (convertLoop st objs).lastFlags =
      List.replicate (objs.length - 1) false ++ [true] := by
  induction objs generalizing st with
  | nil => cases hne rfl
  | cons o rest ih =>
    have ho : objOk o = true := hok o (List.mem_cons_self o rest)
    simp only [objOk, Bool.and_eq_true] at ho
    by_cases hre : rest = []
    · subst hre
      simp [convertLoop, ho.1, ho.2, IsLast]
    · have hrest : ∀ x ∈ rest, objOk x = true :=
        fun x hx => hok x (List.mem_cons_of_mem o hx)
      have hflags := ih
        { st with m_IsLast := rest.isEmpty, Index := st.Index + 1 } hrest hre
      have hempty : rest.isEmpty = false := by
        cases rest with
        | nil => exact absurd rfl hre
        | cons x xs => rfl
      have hrep : List.replicate rest.length false
          = false :: List.replicate (rest.length - 1) false := by
        cases rest with
        | nil => exact absurd rfl hre
        | cons x xs => simp [List.replicate_succ]
      rw [convertLoop]
      simp only [ho.1, ho.2, if_true]
      simp only [IsLast, hempty] at hflags ⊢
      simp only [hflags, List.length_cons, Nat.add_sub_cancel, hrep,
        List.cons_append]

/-- Witness for C5: three successful objects observe `IsLast` as
`false, false, true`. -/
theorem C5_isLast_witness :
    (convertLoop initialConv [okObj, okObj, okObj]).lastFlags
      = [false, false, true] := by
  have h := C5_isLast initialConv [okObj, okObj, okObj] (by decide) (by decide)
  rw [h]; decide

/-- C9: `GetInPos` exposes the `wInpos` marker — the input-stream position
recorded at the start of the object whose write is currently in progress —
and not the `rInpos` marker of the object currently being read: whenever
the two markers differ, `GetInPos` disagrees with `rInpos`. -/
theorem C9_getInPos_is_wInpos :
    (∀ st : OBConversionState, GetInPos st = st.wInpos) ∧
    (∀ st : OBConversionState,
      st.wInpos ≠ st.rInpos → GetInPos st ≠ st.rInpos) := by
  constructor
  · intro st; rfl
  · intro st h
    simpa [GetInPos] using h

/-- Witness for C9: a session whose write marker (5) trails its read marker
(9); `GetInPos` reports the write marker, not 9. -/
theorem C9_getInPos_is_wInpos_witness :
    GetInPos { initialConv with wInpos := 5, rInpos := 9 }
      ≠ ({ initialConv with wInpos := 5, rInpos := 9 } :
          OBConversionState).rInpos :=
  C9_getInPos_is_wInpos.2 { initialConv with wInpos := 5, rInpos := 9 }
    (by decide)

/-! ## The templated API `Read` entry point -/

/-- The outcome of the templated `OBConversion::Read(pOb, pin)`: the
returned boolean, the caller's pointer variable after the call (`pOb` is a
by-value parameter, so assignments inside the body touch only the callee's
local copy, never the caller's variable), whether the input format's
`ReadMolecule` was invoked, and the updated session state. -/
structure ReadOutcome where
  result : Bool
  callerPOb : Option Nat
  invokedReadMolecule : Bool
  state : OBConversionState
deriving DecidableEq, Repr

/-- The templated `OBConversion::Read` body, inline in the header:
`if(pin) pInStream=pin;` then `if(!pInFormat) return false;` then on a
failed `ReadMolecule` set the local `pOb` copy to NULL and return false,
else `pOb = dynamic_cast<T*>(pOb); return (pOb!=NULL);`. `castT` models
`dynamic_cast<T*>` applied to the local pointer copy. -/
def OBConversion_Read (st : OBConversionState) (pOb : Option Nat)
    (pin : Option Nat) (castT : Option Nat → Option Nat) : ReadOutcome :=
  let st1 :=
    match pin with
    | some s => { st with pInStream := some s }
    | none => st
  match st1.pInFormat with
  | none => ⟨false, pOb, false, st1⟩
  | some fmt =>
    if fmt.readMolOk then ⟨(castT pOb).isSome, pOb, true, st1⟩
    else ⟨false, pOb, true, st1⟩

/-- A format whose `ReadMolecule` reports failure. -/
def fmtBadRead : OBFormat := { tag := 3, flags := 0, readMolOk := false }

/-- C10: with no input format selected, `Read` returns false without
invoking any format's `ReadMolecule`; when the input format's
`ReadMolecule` reports failure, `Read` returns false and the caller's
pointer variable is unchanged (the NULL assignment hits only the by-value
parameter copy). -/
theorem C10_read_failure_paths (st : OBConversionState) (pOb : Option Nat)
    (pin : Option Nat) (castT : Option Nat → Option Nat) :
    (st.pInFormat = none →
      (OBConversion_Read st pOb pin castT).result = false ∧
      (OBConversion_Read st pOb pin castT).invokedReadMolecule = false ∧
      (OBConversion_Read st pOb pin castT).callerPOb = pOb) ∧
    (∀ fmt, st.pInFormat = some fmt → fmt.readMolOk = false →
      (OBConversion_Read st pOb pin castT).result = false ∧
      (OBConversion_Read st pOb pin castT).callerPOb = pOb) := by
  constructor
  · intro h
    cases pin <;> simp [OBConversion_Read, h]
  · intro fmt h hfail
    cases pin <;> simp [OBConversion_Read, h, hfail]

/-- Witness for C10: a fresh session (no input format) returns false
without invoking a format; a session whose input format fails its read
returns false with the caller's pointer (7) untouched. -/
theorem C10_read_failure_paths_witness :
    ((OBConversion_Read initialConv (some 7) none id).result = false ∧
     (OBConversion_Read initialConv (some 7) none id).invokedReadMolecule
        = false ∧
     (OBConversion_Read initialConv (some 7) none id).callerPOb = some 7) ∧
    ((OBConversion_Read { initialConv with pInFormat := some fmtBadRead }
        (some 7) none id).result = false ∧
     (OBConversion_Read { initialConv with pInFormat := some fmtBadRead }
        (some 7) none id).callerPOb = some 7) := by
  constructor
  · exact (C10_read_failure_paths initialConv (some 7) none id).1 (by decide)
  · exact (C10_read_failure_paths
      { initialConv with pInFormat := some fmtBadRead } (some 7) none id).2
      fmtBadRead (by decide) (by decide)

/-! ## Batch output file names -/

/-- Replace the first `*` (byte 42) of a template by `repl`; a template
without `*` comes back unchanged. -/
def replaceFirstStar (tmpl repl : Bytes) : Bytes :=
  match tmpl with
  | [] => []
  | b :: bs => if b = 42 then repl ++ bs else b :: replaceFirstStar bs repl

/-- The part of a path after its last `/` or `\` (bytes 47 and 92). -/
def afterLastSep (s : Bytes) : Bytes :=
  (s.reverse.takeWhile fun b => !(b == 47 || b == 92)).reverse

/-- Drop a file name's extension: everything from the last `.` (byte 46)
on, when there is one. -/
def dropExtension (s : Bytes) : Bytes :=
  if s.contains 46 then
    ((s.reverse.dropWhile fun b => !(b == 46)).drop 1).reverse
  else s

/-- Modelled from the spec: the body of `OBConversion::BatchFileName` is
not in the header; per the spec (and the header's own comment) it replaces
the first `*` in `BaseName` by `InFile` with directory path and extension
stripped. -/
def BatchFileName (BaseName InFile : Bytes) : Bytes :=
  replaceFirstStar BaseName (dropExtension (afterLastSep InFile))

/-- Decimal rendering of a C `int`. -/
def decimalBytes (n : Int) : Bytes := str (toString n)

/-- Modelled from the spec: the body of `OBConversion::IncrementedFileName`
is not in the header; per the spec (and the header's own comment) it
replaces the first `*` in `BaseName` by `Count` rendered in decimal. -/
def IncrementedFileName (BaseName : Bytes) (Count : Int) : Bytes :=
  replaceFirstStar BaseName (decimalBytes Count)

theorem replaceFirstStar_of_no_star (tmpl repl : Bytes) (h : 42 ∉ tmpl) :
    replaceFirstStar tmpl repl = tmpl := by
  induction tmpl with
  | nil => rfl
  | cons b bs ih =>
    have hb : b ≠ 42 := fun hc => h (hc ▸ List.mem_cons_self b bs)
    have hbs : 42 ∉ bs := fun hc => h (List.mem_cons_of_mem b hc)
    simp [replaceFirstStar, hb, ih hbs]

theorem replaceFirstStar_split (pre post repl : Bytes) (h : 42 ∉ pre) :
    replaceFirstStar (pre ++ 42 :: post) repl = pre ++ repl ++ post := by
  induction pre with
  | nil => simp [replaceFirstStar]
  | cons b bs ih =>
    have hb : b ≠ 42 := fun hc => h (hc ▸ List.mem_cons_self b bs)
    have hbs : 42 ∉ bs := fun hc => h (List.mem_cons_of_mem b hc)
    simp [replaceFirstStar, hb, ih hbs]

/-- C7: `BatchFileName` substitutes the input file's base name — directory
path and extension stripped — for the first `*` of the template, and
returns a marker-free template unchanged. -/
theorem C7_batchFileName (tmpl infile : Bytes) :
    (∀ pre post, tmpl = pre ++ 42 :: post → 42 ∉ pre →
      BatchFileName tmpl infile
        = pre ++ dropExtension (afterLastSep infile) ++ post) ∧
    (42 ∉ tmpl → BatchFileName tmpl infile = tmpl) := by
  constructor
  · intro pre post hsplit hpre
    rw [BatchFileName, hsplit, replaceFirstStar_split _ _ _ hpre]
  · intro h
    rw [BatchFileName, replaceFirstStar_of_no_star _ _ h]

/-- Witness for C7: input file `a.xyz` with template `out_*.mol` yields
`out_a.mol`. -/
theorem C7_batchFileName_witness :
    BatchFileName (str "out_*.mol") (str "a.xyz") = str "out_a.mol" := by
  have h := (C7_batchFileName (str "out_*.mol") (str "a.xyz")).1
    (str "out_") (str ".mol") (by decide) (by decide)
  rw [h]; decide

/-- C8: `IncrementedFileName` substitutes the decimal rendering of the
count for the first `*` of the template, and returns a marker-free
template unchanged. -/
theorem C8_incrementedFileName (tmpl : Bytes) (count : Int) :
    (∀ pre post, tmpl = pre ++ 42 :: post → 42 ∉ pre →
      IncrementedFileName tmpl count = pre ++ decimalBytes count ++ post) ∧
    (42 ∉ tmpl → IncrementedFileName tmpl count = tmpl) := by
  constructor
  · intro pre post hsplit hpre
    rw [IncrementedFileName, hsplit, replaceFirstStar_split _ _ _ hpre]
  · intro h
    rw [IncrementedFileName, replaceFirstStar_of_no_star _ _ h]

/-- Witness for C8: template `frag_*.sdf` with count 3 yields
`frag_3.sdf`. -/
theorem C8_incrementedFileName_witness :
    IncrementedFileName (str "frag_*.sdf") 3 = str "frag_3.sdf" := by
  have h := (C8_incrementedFileName (str "frag_*.sdf") 3).1
    (str "frag_") (str ".sdf") (by decide) (by decide)
  rw [h]; decide

end OpenBabel
